import Mathlib

/-!
Verification development for the InvenTree build-order workflow.

The Django view layer (`src/InvenTree/build/views.py`) is embedded shallowly:
each HTTP POST handler becomes a pure function from a database snapshot and a
request record to a result record.  Model methods that the views call but whose
code is not part of the sources under verification (`Build.completeBuild`,
`Build.autoAllocate`, `StockItem.IN_STOCK_FILTER`, `InvenTree.helpers`, ...)
are modelled from the design specification; each such definition carries a doc
comment starting with `Modelled from the spec:`.

Quantities are represented as rationals (the application stores fractional
quantities); identifiers are natural numbers.
-/

namespace InvenTree

/-! ## Helper lemmas -/

/-- Build lifecycle status, per the spec's state machine
(Pending, Allocated, Complete, Cancelled). -/
inductive BuildStatus where
  | pending
  | allocated
  | complete
  | cancelled
deriving Repr, DecidableEq

/-- A stock location node; locations form a forest via `parent`. -/
structure StockLocation where
  id : Nat
  parent : Option Nat := none
deriving Repr, DecidableEq

/-- A manufacturable part. -/
structure Part where
  id : Nat
  trackable : Bool := false
  default_location : Option Nat := none
deriving Repr, DecidableEq

/-- One bill-of-materials line: assembly `part` requires `quantity` of `sub_part`. -/
structure BomRow where
  part : Nat
  sub_part : Nat
  quantity : ℚ
deriving Repr, DecidableEq

/-- A physical quantity of a part at a location.  `build` is the owning build
reference when the item is an in-progress build output (`is_building`). -/
structure StockItem where
  id : Nat
  part : Nat
  quantity : ℚ
  location : Option Nat := none
  serial : Option Nat := none
  is_building : Bool := false
  build : Option Nat := none
deriving Repr, DecidableEq

/-- A manufacturing order. -/
structure Build where
  id : Nat
  part : Nat
  quantity : Nat
  take_from : Option Nat := none
  status : BuildStatus := .pending
deriving Repr, DecidableEq

/-- A reservation record tying a source stock item to a build, optionally to a
specific output stock item (`install_into`). -/
structure BuildItem where
  id : Nat
  build : Nat
  stock_item : Nat
  quantity : ℚ
  install_into : Option Nat := none
deriving Repr, DecidableEq

/-- A snapshot of the persistent store. -/
structure DB where
  locations : List StockLocation := []
  parts : List Part := []
  bomRows : List BomRow := []
  stockItems : List StockItem := []
  builds : List Build := []
  buildItems : List BuildItem := []
deriving Repr, DecidableEq

/-- Primary-key lookup of a location. -/
def DB.getLocation (db : DB) (pk : Nat) : Option StockLocation :=
  db.locations.find? (fun l => l.id = pk)

/-- Primary-key lookup of a part. -/
def DB.getPart (db : DB) (pk : Nat) : Option Part :=
  db.parts.find? (fun p => p.id = pk)

/-- Primary-key lookup of a stock item. -/
def DB.getStockItem (db : DB) (pk : Nat) : Option StockItem :=
  db.stockItems.find? (fun s => s.id = pk)

/-- Primary-key lookup of a build. -/
def DB.getBuild (db : DB) (pk : Nat) : Option Build :=
  db.builds.find? (fun b => b.id = pk)

/-- Part id of the stock item with the given primary key, when it exists. -/
def DB.stockPart (db : DB) (pk : Nat) : Option Nat :=
  (db.getStockItem pk).map (fun s => s.part)

/-- Decidable equality for `Except`, needed to evaluate results in proofs. -/
instance exceptDecEq {e a : Type} [DecidableEq e] [DecidableEq a] :
    DecidableEq (Except e a)
  | .error x, .error y =>
    if h : x = y then .isTrue (h ▸ rfl) else .isFalse (fun hc => h (Except.error.inj hc))
  | .error _, .ok _ => .isFalse (fun hc => Except.noConfusion hc)
  | .ok _, .error _ => .isFalse (fun hc => Except.noConfusion hc)
  | .ok x, .ok y =>
    if h : x = y then .isTrue (h ▸ rfl) else .isFalse (fun hc => h (Except.ok.inj hc))

/-- Structurally recursive trim over the character list (Lean core's
`String.trim` is defined by well-founded recursion, which blocks evaluation
inside proofs); stands in for Python's `str.strip()`. -/
def strTrim (s : String) : String :=
  ⟨((s.data.dropWhile Char.isWhitespace).reverse.dropWhile Char.isWhitespace).reverse⟩

/-- Split a character list at every occurrence of `sep`, keeping empty groups,
by structural recursion. -/
def charsSplit (sep : Char) : List Char → List (List Char)
  | [] => [[]]
  | c :: rest =>
    if c = sep then [] :: charsSplit sep rest
    else
      match charsSplit sep rest with
      | g :: gs => (c :: g) :: gs
      | [] => [[c]]

/-- Structurally recursive counterpart of `String.splitOn` for a one-character
separator. -/
def strSplit (s : String) (sep : Char) : List String :=
  (charsSplit sep s.data).map (fun cs => ⟨cs⟩)

/-- Structurally recursive counterpart of `String.toNat?`. -/
def strToNat (s : String) : Option Nat :=
  if s.data = [] then none
  else if s.data.all Char.isDigit then
    some (s.data.foldl (fun acc c => acc * 10 + (c.toNat - 48)) 0)
  else none

/-- Structurally recursive counterpart of `String.toLower`. -/
def strToLower (s : String) : String :=
  ⟨s.data.map Char.toLower⟩

/-- Modelled from the spec: `str2bool` from `InvenTree.helpers` is not under
`src/`.  It parses a textual boolean: a string whose trimmed, lowercased form
is one of the usual truthy spellings maps to `true`, everything else (including
the Python default `False` used when the key is absent) maps to `false`. -/
def str2bool (text : Option String) : Bool :=
  match text with
  | none => false
  | some s => ["1", "y", "yes", "t", "true", "ok", "on"].contains (strToLower (strTrim s))

/-- Parse a single serial-number token: either a plain natural number or an
ascending range `a-b`. -/
def parseSerialToken (tok : String) : Option (List Nat) :=
  match strSplit (strTrim tok) '-' with
  | [a] => (strToNat (strTrim a)).map (fun n => [n])
  | [a, b] =>
    match strToNat (strTrim a), strToNat (strTrim b) with
    | some x, some y => if x ≤ y then some ((List.range (y + 1 - x)).map (fun k => x + k)) else none
    | _, _ => none
  | _ => none

/-- Modelled from the spec: `ExtractSerialNumbers` from `InvenTree.helpers` is
not under `src/`.  Per the spec it parses a comma-separated serial string
(accepting ranges such as "1,3,5-10") into a list of integers and raises
`ValidationError` — here `Except.error` — when the text is malformed, contains
duplicate serials, or the number of serials is not the expected count. -/
def ExtractSerialNumbers (text : String) (expected : Nat) : Except String (List Nat) :=
  match (strSplit text ',').mapM parseSerialToken with
  | none => .error "Invalid serial number string"
  | some groups =>
    let serials := groups.flatten
    if serials.Nodup then
      if serials.length = expected then .ok serials
      else .error "Serial number count does not match expected quantity"
    else .error "Duplicate serial numbers found"

/-- Modelled from the spec: `Part.checkIfSerialNumberExists` from `part.models`
is not under `src/`.  Per the spec (`checkSerialNumberExists(part, serial)`) it
reports whether any stock item of the part already carries the serial. -/
def checkIfSerialNumberExists (db : DB) (partId : Nat) (serial : Nat) : Bool :=
  db.stockItems.any (fun s => s.part = partId && s.serial = some serial)

/-- Computable minimum on rationals (Python's `min`); kept apart from
Mathlib's lattice `min` so that results evaluate inside proofs. -/
def qmin (a b : ℚ) : ℚ := if a ≤ b then a else b

/-- Sum of the allocated quantities of all build-item records referencing the
stock item with the given primary key. -/
def allocatedAgainst (db : DB) (stockId : Nat) : ℚ :=
  ((db.buildItems.filter (fun bi => bi.stock_item = stockId)).map (fun bi => bi.quantity)).sum

/-- Modelled from the spec: `StockItem.unallocated_quantity` from `stock.models`
is not under `src/`.  Per the spec (`unallocatedQuantity`) it is the item's
total quantity minus the sum of active build-item allocations against it. -/
def unallocated_quantity (db : DB) (s : StockItem) : ℚ :=
  s.quantity - allocatedAgainst db s.id

/-- Sum of allocated quantities within one build whose source stock item has
the given part. -/
def allocatedForPart (db : DB) (buildId partId : Nat) : ℚ :=
  ((db.buildItems.filter
      (fun bi => bi.build = buildId && db.stockPart bi.stock_item = some partId)).map
    (fun bi => bi.quantity)).sum

/-- Required quantity of a sub-part per single unit built, read off the
assembly's bill of materials (first matching line). -/
def bomLineQuantity (db : DB) (assembly subPart : Nat) : ℚ :=
  match db.bomRows.find? (fun r => r.part = assembly && r.sub_part = subPart) with
  | some r => r.quantity
  | none => 0

/-- Modelled from the spec: `Build.getUnallocatedQuantity` from `build.models`
is not under `src/`.  Per the spec it is the target quantity for the part's BOM
line minus the sum of current allocations for that part within the build. -/
def getUnallocatedQuantity (db : DB) (b : Build) (partId : Nat) : ℚ :=
  bomLineQuantity db b.part partId * (b.quantity : ℚ) - allocatedForPart db b.id partId

/-- Modelled from the spec: `StockItem.IN_STOCK_FILTER` from `stock.models` is
not under `src/`.  Per the spec the in-stock predicate selects items eligible
for allocation: positive quantity and not itself an in-progress build output. -/
def inStock (s : StockItem) : Bool :=
  decide (0 < s.quantity) && !s.is_building

/-- Climbs parent links with fuel, testing whether `cur` lies in the subtree
rooted at `root`. -/
def locWithinFuel (db : DB) (root : Nat) : Nat → Nat → Bool
  | 0, _ => false
  | fuel + 1, cur =>
    cur = root ||
      (match (db.getLocation cur).bind (fun l => l.parent) with
       | some par => locWithinFuel db root fuel par
       | none => false)

/-- Modelled from the spec: `StockLocation.getUniqueChildren` from
`stock.models` is not under `src/`.  Per the spec (`uniqueChildren`) the
take-from restriction scopes eligible stock to the location's subtree, the
location itself included; membership is decided by climbing parent links. -/
def inLocationSubtree (db : DB) (root : Nat) (loc : Nat) : Bool :=
  locWithinFuel db root (db.locations.length + 1) loc

/-- Largest stock-item primary key in use (0 when none). -/
def maxStockId (db : DB) : Nat :=
  db.stockItems.foldl (fun m s => max m s.id) 0

/-- Modelled from the spec: `Build.completeBuild` from `build.models` is not
under `src/`.  Per spec section 4.3: refuse when the build is already terminal
(returning `false` with no mutation); otherwise consume every allocation
(decrement each source stock item by the allocated amount, deleting it when
fully consumed, and delete the build-item record), replace the in-progress
outputs with finalized output stock at the target location (one serialized
item per serial number for a trackable part, a single item of the build
quantity otherwise), and mark the build complete. -/
def completeBuild (db : DB) (b : Build) (p : Part) (locId : Nat)
    (serials : List Nat) : DB × Bool :=
  if b.status = .complete ∨ b.status = .cancelled then (db, false)
  else
    let allocs := db.buildItems.filter (fun bi => bi.build = b.id)
    let consumedStock := db.stockItems.filterMap (fun s =>
      let c : ℚ := ((allocs.filter (fun bi => bi.stock_item = s.id)).map
        (fun bi => bi.quantity)).sum
      if c = 0 then some s
      else if c < s.quantity then some { s with quantity := s.quantity - c }
      else none)
    let remStock := consumedStock.filter (fun s => !(s.is_building && s.build = some b.id))
    let base := maxStockId db
    let outputs : List StockItem :=
      if p.trackable then
        serials.mapIdx (fun i sn =>
          { id := base + 1 + i, part := b.part, quantity := 1, location := some locId,
            serial := some sn, is_building := false, build := none })
      else
        [{ id := base + 1, part := b.part, quantity := (b.quantity : ℚ),
           location := some locId, serial := none, is_building := false, build := none }]
    let builds2 := db.builds.map (fun x =>
      if x.id = b.id then { x with status := BuildStatus.complete } else x)
    ({ db with stockItems := remStock ++ outputs,
               builds := builds2,
               buildItems := db.buildItems.filter (fun bi => !(bi.build = b.id)) }, true)

/-- Raw POST parameters of the build-completion view (`None` = key absent). -/
structure CompleteRequest where
  confirm : Option String := none
  location : Option String := none
  serial_numbers : Option String := none
deriving Repr, DecidableEq

/-- Resolution of the raw `location` parameter: Django's
`StockLocation.objects.get(id=loc_id)` succeeds only when the parameter is
present, numeric and names an existing location; `ValueError` and
`DoesNotExist` are both caught by the view. -/
def resolveLocation (db : DB) (param : Option String) : Option StockLocation :=
  match param with
  | none => none
  | some s =>
    match strToNat s with
    | none => none
    | some n => db.getLocation n

/-- Result of the build-completion POST handler. -/
structure CompleteOutcome where
  db : DB
  form_valid : Bool
  errors : List (String × String)
  completeBuildCalled : Bool
deriving Repr, DecidableEq

/-- Serial-number validation block of `BuildComplete.post` (views.py lines
279-307): for a trackable part with a non-empty `serial_numbers` string, the
serials are extracted (`ValidationError` messages becoming field errors) and
checked against existing stock serials; otherwise the serial list is empty. -/
def completeSerialCheck (db : DB) (b : Build) (p : Part) (req : CompleteRequest) :
    Except (String × String) (List Nat) :=
  if p.trackable then
    let sn := strTrim (req.serial_numbers.getD "")
    if sn.length > 0 then
      match ExtractSerialNumbers sn b.quantity with
      | .error msg => .error ("serial_numbers", msg)
      | .ok serials =>
        let ex := serials.filter (fun sr => checkIfSerialNumberExists db p.id sr)
        if ex.length > 0 then
          .error ("serial_numbers",
            "The following serial numbers already exist: ("
              ++ String.intercalate "," (ex.map toString) ++ ")")
        else .ok serials
    else .ok []
  else .ok []

/-- Shallow embedding of `BuildComplete.post` (src/InvenTree/build/views.py,
lines 251-318).  `b` is the build resolved by `get_object` and `p` its part.
The handler parses `confirm` with `str2bool`, resolves the location (recording
a field error on failure), validates serial numbers for a trackable part, and
only when everything validated calls `completeBuild`. -/
def buildCompletePost (db : DB) (b : Build) (p : Part) (req : CompleteRequest) :
    CompleteOutcome :=
  if str2bool req.confirm = false then
    { db := db, form_valid := false, completeBuildCalled := false,
      errors := [("confirm", "Confirm completion of build")] }
  else
    let locResult := resolveLocation db req.location
    let locErrors : List (String × String) :=
      match locResult with
      | some _ => []
      | none => [("location", "Invalid location selected")]
    match locResult, completeSerialCheck db b p req with
    | some loc, .ok serials =>
      let step := completeBuild db b p loc.id serials
      if step.2 then
        { db := step.1, form_valid := true, errors := [], completeBuildCalled := true }
      else
        { db := step.1, form_valid := false,
          errors := [("non_field", "Build could not be completed")],
          completeBuildCalled := true }
    | some _, .error e =>
      { db := db, form_valid := false, errors := [e], completeBuildCalled := false }
    | none, .ok _ =>
      { db := db, form_valid := false, errors := locErrors, completeBuildCalled := false }
    | none, .error e =>
      { db := db, form_valid := false, errors := locErrors ++ [e],
        completeBuildCalled := false }

/-- Largest build-item primary key in use (0 when none). -/
def maxBuildItemId (db : DB) : Nat :=
  db.buildItems.foldl (fun m bi => max m bi.id) 0

/-- Insert a new build-item record. -/
def DB.addBuildItem (db : DB) (bi : BuildItem) : DB :=
  { db with buildItems := db.buildItems ++ [bi] }

/-- Modelled from the spec: deleting a single `BuildItem`
(`releaseAllocation` / the `BuildItemDelete` view) removes the reservation
record without touching the underlying stock quantities. -/
def deleteBuildItem (db : DB) (pk : Nat) : DB :=
  { db with buildItems := db.buildItems.filter (fun bi => !(bi.id = pk)) }

/-- Modelled from the spec: `Build.unallocateStock` from `build.models` is not
under `src/`.  Per the spec it releases all build-item allocations of the
build, deleting the records without touching stock quantities. -/
def unallocateStock (db : DB) (buildId : Nat) : DB :=
  { db with buildItems := db.buildItems.filter (fun bi => !(bi.build = buildId)) }

/-- Modelled from the spec: `createAllocation(build, stockItem, quantity,
installInto?)` from the allocation engine is not under `src/`.  Per spec
section 4.2 it validates that the quantity is positive and at most the stock
item's unallocated quantity, and that `installInto`, when given, is a stock
item with `is_building = true` owned by this build; it fails with
`ValidationError` (here `Except.error`) otherwise. -/
def createAllocation (db : DB) (buildId stockId : Nat) (q : ℚ)
    (installInto : Option Nat) : Except String DB :=
  match db.getStockItem stockId with
  | none => .error "Stock item does not exist"
  | some s =>
    if q ≤ 0 then .error "Allocation quantity must be positive"
    else if unallocated_quantity db s < q then
      .error "Allocation quantity exceeds unallocated stock"
    else
      match installInto with
      | none =>
        .ok (db.addBuildItem
          { id := maxBuildItemId db + 1, build := buildId, stock_item := stockId,
            quantity := q, install_into := none })
      | some oid =>
        match db.getStockItem oid with
        | none => .error "Output stock item does not exist"
        | some o =>
          if o.is_building = true ∧ o.build = some buildId then
            .ok (db.addBuildItem
              { id := maxBuildItemId db + 1, build := buildId, stock_item := stockId,
                quantity := q, install_into := some oid })
          else .error "Output is not an in-progress output of this build"

/-- Stock-item ids already allocated to the build for the given part — the ids
the allocation view excludes from its candidate list (views.py line 594). -/
def allocatedStockIds (db : DB) (buildId partId : Nat) : List Nat :=
  (db.buildItems.filter
    (fun bi => bi.build = buildId && db.stockPart bi.stock_item = some partId)).map
    (fun bi => bi.stock_item)

/-- Does the stock item pass the build's take-from restriction?  Vacuously true
when the build has no take-from location; an item without a location never lies
in a subtree. -/
def passesTakeFrom (db : DB) (b : Build) (s : StockItem) : Bool :=
  match b.take_from with
  | none => true
  | some tf =>
    match s.location with
    | some loc => inLocationSubtree db tf loc
    | none => false

/-- Eligible allocation candidates of one part for a build: in stock, matching
the part, inside the take-from subtree when one is set, and not already
allocated to this build for this part. -/
def allocationCandidates (db : DB) (b : Build) (partId : Nat) : List StockItem :=
  db.stockItems.filter (fun s =>
    inStock s && s.part = partId && passesTakeFrom db b s &&
      !((allocatedStockIds db b.id partId).contains s.id))

/-- Modelled from the spec: one greedy allocation-engine step for one BOM
sub-part.  When the part still has a positive unallocated requirement and
exactly one unambiguous candidate exists, allocate the minimum of the
remaining requirement and the candidate's unallocated quantity; otherwise do
nothing. -/
def autoAllocatePart (db : DB) (b : Build) (partId : Nat) : DB :=
  match allocationCandidates db b partId with
  | [s] =>
    if 0 < getUnallocatedQuantity db b partId then
      db.addBuildItem
        { id := maxBuildItemId db + 1, build := b.id, stock_item := s.id,
          quantity := qmin (getUnallocatedQuantity db b partId) (unallocated_quantity db s),
          install_into := none }
    else db
  | _ => db

/-- Modelled from the spec: `Build.autoAllocate` from `build.models` is not
under `src/`.  Per spec sections 4.2-4.3 it walks the BOM lines of the build's
part and greedily applies the unambiguous single-candidate allocation for each
line, allocating only the remaining gap. -/
def autoAllocate (db : DB) (b : Build) : DB :=
  ((db.bomRows.filter (fun r => r.part = b.part)).map (fun r => r.sub_part)).foldl
    (fun d pid => autoAllocatePart d b pid) db

/-- Result of the confirm-guarded POST handlers. -/
structure ConfirmOutcome where
  db : DB
  form_valid : Bool
  errors : List (String × String)
  performed : Bool
deriving Repr, DecidableEq

/-- Shallow embedding of `BuildAutoAllocate.post` (views.py lines 116-141).
The Python guard is `confirm is False` on `request.POST.get('confirm', False)`:
the identity test only succeeds when the key was absent and the default
`False` object was returned, so any present string — "false" or "" included —
triggers `build.autoAllocate()`. -/
def buildAutoAllocatePost (db : DB) (b : Build) (confirm : Option String) :
    ConfirmOutcome :=
  match confirm with
  | none =>
    { db := db, form_valid := false, performed := false,
      errors := [("confirm", "Confirm stock allocation")] }
  | some _ =>
    { db := autoAllocate db b, form_valid := true, performed := true, errors := [] }

/-- Shallow embedding of `BuildUnallocate.post` (views.py lines 156-176), with
the same `confirm is False` identity test as `BuildAutoAllocate.post`. -/
def buildUnallocatePost (db : DB) (b : Build) (confirm : Option String) :
    ConfirmOutcome :=
  match confirm with
  | none =>
    { db := db, form_valid := false, performed := false,
      errors := [("confirm", "Confirm unallocation of build stock")] }
  | some _ =>
    { db := unallocateStock db b.id, form_valid := true, performed := true, errors := [] }

/-- Crashes the Python view code can raise past its own handlers. -/
inductive ViewCrash where
  | valueError
  | attrErrorNoneBuild
deriving Repr, DecidableEq

/-- Python truthiness of an optional string parameter: absent and empty are
falsy. -/
def truthy (o : Option String) : Bool :=
  match o with
  | none => false
  | some s => !(s = "")

/-- Data the `BuildItemCreate` form is configured with by `get_form`. -/
structure ItemCreateForm where
  install_into_candidates : Option (List StockItem)
  install_into_hidden : Bool
  stock_candidates : List StockItem
  stock_item_initial : Option Nat
deriving Repr, DecidableEq

/-- Stock-item narrowing of `BuildItemCreate.get_form` (views.py lines
566-602).  `build_id` is the form's current value for the `build` field and
`partParam` the raw `part` query parameter.  The choices start from the
in-stock items and, when a part is requested, are narrowed to that part, to
the build's take-from subtree (when a build with a take-from location is
given) and to the items not already allocated to this build for this part.  A
non-numeric part parameter raises an uncaught `ValueError`
(`Part.objects.get(pk=part_id)` catches only `Part.DoesNotExist`). -/
def buildItemCreateStockFilter (db : DB) (build_id : Option Nat)
    (partParam : Option String) : Except ViewCrash (List StockItem) :=
  let base := db.stockItems.filter inStock
  if truthy partParam then
    match strToNat (partParam.getD "") with
    | none => .error .valueError
    | some pid =>
      match db.getPart pid with
      | none => .ok base
      | some _ =>
        let f1 := base.filter (fun s => s.part = pid)
        let f2 :=
          match build_id with
          | none => f1
          | some bid =>
            let f1b :=
              match db.getBuild bid with
              | some b =>
                match b.take_from with
                | some tf => f1.filter (fun (s : StockItem) =>
                    match s.location with
                    | some loc => inLocationSubtree db tf loc
                    | none => false)
                | none => f1
              | none => f1
            f1b.filter (fun s => !((allocatedStockIds db bid pid).contains s.id))
        .ok f2
  else .ok base

/-- Shallow embedding of `BuildItemCreate.get_form` (views.py lines 533-608),
assembling the form from the narrowed stock choices: restrict `install_into` to the build's
in-progress outputs when a build is given, and pre-select the stock item when
exactly one candidate remains. -/
def buildItemCreateGetForm (db : DB) (build_id : Option Nat) (output_id : Option Nat)
    (partParam : Option String) : Except ViewCrash ItemCreateForm :=
  match buildItemCreateStockFilter db build_id partParam with
  | .error e => .error e
  | .ok avail =>
    .ok { install_into_candidates :=
            match build_id with
            | some bid =>
              some (db.stockItems.filter (fun s => s.build = some bid && s.is_building))
            | none => none,
          install_into_hidden := (output_id.bind db.getStockItem).isSome,
          stock_candidates := avail,
          stock_item_initial :=
            match avail with
            | [x] => some x.id
            | _ => none }

/-- Raw GET parameters of the `BuildItemCreate` view (`None` = key absent). -/
structure ItemCreateParams where
  build : Option String := none
  part : Option String := none
  install_into : Option String := none
  quantity : Option String := none
  item : Option String := none
deriving Repr, DecidableEq

/-- Initial form data computed by `BuildItemCreate.get_initial`. -/
structure InitialData where
  part : Option Nat := none
  build : Option Nat := none
  install_into : Option Nat := none
  quantity : Option ℚ := none
deriving Repr, DecidableEq

/-- Parse a nonnegative decimal literal the way Python's `float()` accepts it
(sign and exponent forms are not needed by this development). -/
def parseFloat? (s : String) : Option ℚ :=
  match strSplit (strTrim s) '.' with
  | [a] => (strToNat a).map (fun n => (n : ℚ))
  | [a, b] =>
    match strToNat a, strToNat b with
    | some x, some y => some ((x : ℚ) + (y : ℚ) / ((10 : ℚ) ^ b.length))
    | _, _ => none
  | _ => none

/-- Shallow embedding of `BuildItemCreate.get_initial` (views.py lines
610-693).  Crashes of the Python code are surfaced as `Except.error`: an
uncaught `ValueError` from a malformed `part`/`build` pk or a malformed
`quantity` float, and the uncaught `AttributeError` from
`build.getUnallocatedQuantity(part)` when `build` is `None` (no build id was
supplied, or the id matched no build) while a part was resolved and no
quantity parameter was given. -/
def buildItemCreateGetInitial (db : DB) (req : ItemCreateParams) :
    Except ViewCrash InitialData :=
  let partStep : Except ViewCrash (Option Part) :=
    if truthy req.part then
      match strToNat (req.part.getD "") with
      | none => .error .valueError
      | some pid => .ok (db.getPart pid)
    else .ok none
  match partStep with
  | .error e => .error e
  | .ok partRes =>
    let buildStep : Except ViewCrash (Option Build) :=
      if truthy req.build then
        match strToNat (req.build.getD "") with
        | none => .error .valueError
        | some bid => .ok (db.getBuild bid)
      else .ok none
    match buildStep with
    | .error e => .error e
    | .ok buildRes =>
      let qStep : Except ViewCrash (Option ℚ) :=
        match req.quantity with
        | none => .ok none
        | some qs =>
          match parseFloat? qs with
          | none => .error .valueError
          | some q => .ok (some q)
      match qStep with
      | .error e => .error e
      | .ok q0 =>
        let gapStep : Except ViewCrash (Option ℚ) :=
          match q0, partRes with
          | none, some p =>
            match buildRes with
            | none => .error .attrErrorNoneBuild
            | some b => .ok (some (getUnallocatedQuantity db b p.id))
          | q, _ => .ok q
        match gapStep with
        | .error e => .error e
        | .ok q1 =>
          let item0 : Option StockItem :=
            if truthy req.item then
              match strToNat (req.item.getD "") with
              | none => none
              | some iid => db.getStockItem iid
            else none
          let item1 : Option StockItem :=
            match item0, partRes with
            | none, some p =>
              match db.stockItems.filter (fun s => s.part = p.id) with
              | [x] => some x
              | _ => none
            | it, _ => it
          let q2 : Option ℚ :=
            match item1 with
            | none => q1
            | some it =>
              match q1 with
              | none => some (unallocated_quantity db it)
              | some q => some (qmin q (unallocated_quantity db it))
          let outputRes : Option StockItem :=
            if truthy req.install_into then
              match strToNat (req.install_into.getD "") with
              | none => none
              | some oid => db.getStockItem oid
            else none
          .ok { part := partRes.map (fun p => p.id),
                build := buildRes.map (fun b => b.id),
                install_into := outputRes.map (fun s => s.id),
                quantity := q2 }

/-- Identifier uniqueness of the stock table. -/
def stockIdsNodup (db : DB) : Prop :=
  (db.stockItems.map (fun s => s.id)).Nodup

/-- Demo database for the completion scenarios: one trackable part (1), one
location (7), one stock item of part 1 carrying serial 11, one pending build
of three units of part 1. -/
def dbC1 : DB :=
  { locations := [{ id := 7 }],
    parts := [{ id := 1, trackable := true }],
    stockItems := [{ id := 3, part := 1, quantity := 1, serial := some 11 }],
    builds := [{ id := 5, part := 1, quantity := 3 }] }

/-- The pending build of `dbC1`. -/
def bC1 : Build := { id := 5, part := 1, quantity := 3 }

/-- The trackable part of `dbC1`. -/
def pC1 : Part := { id := 1, trackable := true }

/-- A confirmed completion request with serial range "10-12". -/
def reqC1 : CompleteRequest :=
  { confirm := some "1", location := some "7", serial_numbers := some "10-12" }

/-- Completion request naming location 99, which does not exist in `dbC1`. -/
def reqC7 : CompleteRequest :=
  { confirm := some "1", location := some "99", serial_numbers := some "10-12" }

/-- Confirmed completion request for `dbC1` with a valid location and no
serial numbers at all. -/
def reqC3 : CompleteRequest :=
  { confirm := some "1", location := some "7", serial_numbers := none }

/-- Database with a single part and no builds, for the crash witness. -/
def dbC10 : DB := { parts := [{ id := 1 }] }

/-- Allocation-form request carrying only a part id. -/
def reqC10 : ItemCreateParams := { part := some "1" }

/-- Demo database for the install-into restriction: stock item 2 is the
in-progress output of build 5, stock item 3 of build 6, stock item 1 is plain
stock. -/
def dbC6 : DB :=
  { parts := [{ id := 3 }],
    stockItems :=
      [{ id := 1, part := 1, quantity := 5 },
       { id := 2, part := 1, quantity := 1, is_building := true, build := some 5 },
       { id := 3, part := 2, quantity := 1, is_building := true, build := some 6 }],
    builds := [{ id := 5, part := 3, quantity := 1 }] }

/-- The form produced for `dbC6` with `build = 5` and no part filter. -/
def formC6 : ItemCreateForm :=
  { install_into_candidates :=
      some [{ id := 2, part := 1, quantity := 1, is_building := true, build := some 5 }],
    install_into_hidden := false,
    stock_candidates := [{ id := 1, part := 1, quantity := 5 }],
    stock_item_initial := some 1 }

/-- Demo database for the candidate filter: build 5 takes from location 1
(with child location 2); stock item 1 qualifies, item 2 is outside the
subtree, item 3 is the wrong part, item 4 is already allocated to build 5. -/
def dbC4 : DB :=
  { locations := [{ id := 1 }, { id := 2, parent := some 1 }, { id := 3 }],
    parts := [{ id := 1 }, { id := 9 }],
    stockItems :=
      [{ id := 1, part := 1, quantity := 5, location := some 2 },
       { id := 2, part := 1, quantity := 5, location := some 3 },
       { id := 3, part := 2, quantity := 5, location := some 2 },
       { id := 4, part := 1, quantity := 5, location := some 1 }],
    builds := [{ id := 5, part := 9, quantity := 1, take_from := some 1 }],
    buildItems := [{ id := 1, build := 5, stock_item := 4, quantity := 1 }] }

/-- The form produced for `dbC4` with `build = 5`, `part = 1`. -/
def formC4 : ItemCreateForm :=
  { install_into_candidates := some [],
    install_into_hidden := false,
    stock_candidates := [{ id := 1, part := 1, quantity := 5, location := some 2 }],
    stock_item_initial := some 1 }

/-- Demo database for the proposed-quantity scenario: build 5 makes part 2,
whose BOM needs 5 of part 1; stock item 1 holds 10 of part 1. -/
def dbC5 : DB :=
  { parts := [{ id := 1 }, { id := 2 }],
    bomRows := [{ part := 2, sub_part := 1, quantity := 5 }],
    stockItems := [{ id := 1, part := 1, quantity := 10 }],
    builds := [{ id := 5, part := 2, quantity := 1 }] }

/-- The build of `dbC5`. -/
def bC5 : Build := { id := 5, part := 2, quantity := 1 }

/-- Allocation-form request for `dbC5` supplying an explicit quantity of 3. -/
def reqC5 : ItemCreateParams :=
  { build := some "5", part := some "1", quantity := some "3", item := some "1" }

/-- Allocation-form request for `dbC5` with no explicit quantity. -/
def reqC5b : ItemCreateParams :=
  { build := some "5", part := some "1", item := some "1" }

/-- The spec's ledger invariant: for every stock item, the sum of active
build-item allocations against it is at most its quantity. -/
def allocationInvariant (db : DB) : Prop :=
  ∀ s ∈ db.stockItems, allocatedAgainst db s.id ≤ s.quantity

/-- Decidability of the stock-id uniqueness well-formedness condition. -/
instance (db : DB) : Decidable (stockIdsNodup db) := by
  unfold stockIdsNodup
  infer_instance

/-- Decidability of the allocation invariant on a concrete state. -/
instance (db : DB) : Decidable (allocationInvariant db) := by
  unfold allocationInvariant
  infer_instance

lemma find?_eq_of_nodup_keys {α : Type} (key : α → Nat) :
    ∀ (l : List α), (l.map key).Nodup → ∀ a ∈ l, l.find? (fun x => key x = key a) = some a := by
  intro l
  induction l with
  | nil => intro _ a ha; cases ha
  | cons b t ih =>
    intro hnd a ha
    rw [List.map_cons, List.nodup_cons] at hnd
    rcases List.mem_cons.mp ha with rfl | hat
    · exact List.find?_cons_of_pos _ (by simp)
    · have hne : key b ≠ key a := by
        intro h
        exact hnd.1 (h ▸ List.mem_map_of_mem key hat)
      rw [List.find?_cons_of_neg _ (by simpa using hne)]
      exact ih hnd.2 a hat

lemma getStockItem_of_mem {db : DB} (hnd : stockIdsNodup db) {s : StockItem}
    (hs : s ∈ db.stockItems) : db.getStockItem s.id = some s :=
  find?_eq_of_nodup_keys (fun x : StockItem => x.id) db.stockItems hnd s hs

lemma completeSerialCheck_existing (db : DB) (b : Build) (p : Part)
    (req : CompleteRequest) (serials : List Nat)
    (hp : p.trackable = true)
    (hsn : 0 < (strTrim (req.serial_numbers.getD "")).length)
    (hex : ExtractSerialNumbers ((strTrim (req.serial_numbers.getD ""))) b.quantity = .ok serials)
    (hexist : serials.filter (fun sr => checkIfSerialNumberExists db p.id sr) ≠ []) :
    completeSerialCheck db b p req =
      .error ("serial_numbers",
        "The following serial numbers already exist: ("
          ++ String.intercalate ","
              ((serials.filter (fun sr => checkIfSerialNumberExists db p.id sr)).map toString)
          ++ ")") := by
  have hlen : 0 < (serials.filter (fun sr => checkIfSerialNumberExists db p.id sr)).length :=
    List.length_pos.mpr hexist
  simp only [completeSerialCheck, hp, if_true, hsn, hex, hlen, if_pos]

/-- C1: a confirmed build-completion request for a trackable part whose
extracted serial numbers include some that already exist on stock of that part
fails: `completeBuild` is never invoked, the database is unchanged, and the
`serial_numbers` field error lists exactly the already-existing serials. -/
theorem completePost_existing_serials (db : DB) (b : Build) (p : Part)
    (req : CompleteRequest) (serials : List Nat)
    (hp : p.trackable = true)
    (hc : str2bool req.confirm = true)
    (hsn : 0 < (strTrim (req.serial_numbers.getD "")).length)
    (hex : ExtractSerialNumbers ((strTrim (req.serial_numbers.getD ""))) b.quantity = .ok serials)
    (hexist : serials.filter (fun sr => checkIfSerialNumberExists db p.id sr) ≠ []) :
    (buildCompletePost db b p req).completeBuildCalled = false ∧
    (buildCompletePost db b p req).db = db ∧
    ("serial_numbers",
      "The following serial numbers already exist: ("
        ++ String.intercalate ","
            ((serials.filter (fun sr => checkIfSerialNumberExists db p.id sr)).map toString)
        ++ ")") ∈ (buildCompletePost db b p req).errors := by
  have hser := completeSerialCheck_existing db b p req serials hp hsn hex hexist
  unfold buildCompletePost
  rw [hc]
  cases hloc : resolveLocation db req.location with
  | none => simp [hser, hloc]
  | some loc => simp [hser, hloc]

/-- Witness for C1: in `dbC1` serial 11 of the requested range "10-12" already
exists, so the completion is rejected listing "(11)" and nothing changes. -/
theorem completePost_existing_serials_witness :
    (buildCompletePost dbC1 bC1 pC1 reqC1).completeBuildCalled = false ∧
    (buildCompletePost dbC1 bC1 pC1 reqC1).db = dbC1 ∧
    ("serial_numbers", "The following serial numbers already exist: (11)")
      ∈ (buildCompletePost dbC1 bC1 pC1 reqC1).errors := by
  have h := completePost_existing_serials dbC1 bC1 pC1 reqC1 [10, 11, 12]
    (by decide) (by decide) (by decide) (by decide) (by decide)
  simpa using h

/-- C7: a confirmed completion request naming a non-existent or malformed
location fails with a field-level error on `location`; `completeBuild` is not
invoked and the database is unchanged. -/
theorem completePost_bad_location (db : DB) (b : Build) (p : Part)
    (req : CompleteRequest)
    (hc : str2bool req.confirm = true)
    (hloc : resolveLocation db req.location = none) :
    (buildCompletePost db b p req).completeBuildCalled = false ∧
    (buildCompletePost db b p req).db = db ∧
    (buildCompletePost db b p req).form_valid = false ∧
    ("location", "Invalid location selected") ∈ (buildCompletePost db b p req).errors := by
  unfold buildCompletePost
  rw [hc]
  cases hser : completeSerialCheck db b p req with
  | ok serials => simp [hloc, hser]
  | error e => simp [hloc, hser]

/-- Witness for C7: completing into the non-existent location 99 of `dbC1` is
rejected with a `location` field error and no mutation. -/
theorem completePost_bad_location_witness :
    (buildCompletePost dbC1 bC1 pC1 reqC7).completeBuildCalled = false ∧
    (buildCompletePost dbC1 bC1 pC1 reqC7).db = dbC1 ∧
    (buildCompletePost dbC1 bC1 pC1 reqC7).form_valid = false ∧
    ("location", "Invalid location selected") ∈ (buildCompletePost dbC1 bC1 pC1 reqC7).errors :=
  completePost_bad_location dbC1 bC1 pC1 reqC7 (by decide) (by decide)

lemma extractSerialNumbers_ok_spec (text : String) (expected : Nat) (serials : List Nat)
    (h : ExtractSerialNumbers text expected = .ok serials) :
    serials.length = expected ∧ serials.Nodup := by
  unfold ExtractSerialNumbers at h
  cases hm : (strSplit text ',').mapM parseSerialToken with
  | none => rw [hm] at h; cases h
  | some groups =>
    rw [hm] at h
    dsimp only at h
    by_cases hnd : groups.flatten.Nodup
    · rw [if_pos hnd] at h
      by_cases hlen : groups.flatten.length = expected
      · rw [if_pos hlen] at h
        cases h
        exact ⟨hlen, hnd⟩
      · rw [if_neg hlen] at h; cases h
    · rw [if_neg hnd] at h; cases h

/-- C3 counterexample: in `dbC1` the part is trackable, yet the confirmed
completion request `reqC3` carrying no serial numbers is accepted — the form
validates and `completeBuild` is invoked — so a completion request for a
trackable part without serial numbers is not rejected. -/
theorem completePost_no_serials_accepted_cex :
    pC1.trackable = true ∧ reqC3.serial_numbers = none ∧
    (buildCompletePost dbC1 bC1 pC1 reqC3).completeBuildCalled = true ∧
    (buildCompletePost dbC1 bC1 pC1 reqC3).form_valid = true := by decide

/-- C3 (amended): for a trackable part, serial numbers at completion are
optional.  A confirmed request with a valid location and an empty
serial-number string is accepted, invoking `completeBuild` with the empty
serial list; when a non-empty serial string is supplied it must extract to
exactly `quantity` distinct serial numbers (any extraction error rejects with
no mutation), and extracted serials that already exist reject with no
mutation. -/
theorem completePost_serials_optional (db : DB) (b : Build) (p : Part)
    (req : CompleteRequest) (loc : StockLocation)
    (hp : p.trackable = true)
    (hc : str2bool req.confirm = true)
    (hloc : resolveLocation db req.location = some loc) :
    ((strTrim (req.serial_numbers.getD "")).length = 0 →
      (buildCompletePost db b p req).completeBuildCalled = true ∧
      (buildCompletePost db b p req).db = (completeBuild db b p loc.id []).1) ∧
    (∀ serials,
      ExtractSerialNumbers (strTrim (req.serial_numbers.getD "")) b.quantity = .ok serials →
      serials.length = b.quantity ∧ serials.Nodup) ∧
    (0 < (strTrim (req.serial_numbers.getD "")).length →
      ∀ msg,
        ExtractSerialNumbers (strTrim (req.serial_numbers.getD "")) b.quantity = .error msg →
        (buildCompletePost db b p req).completeBuildCalled = false ∧
        (buildCompletePost db b p req).db = db) ∧
    (0 < (strTrim (req.serial_numbers.getD "")).length →
      ∀ serials,
        ExtractSerialNumbers (strTrim (req.serial_numbers.getD "")) b.quantity = .ok serials →
        serials.filter (fun sr => checkIfSerialNumberExists db p.id sr) ≠ [] →
        (buildCompletePost db b p req).completeBuildCalled = false ∧
        (buildCompletePost db b p req).db = db) := by
  refine ⟨?_, ?_, ?_, ?_⟩
  · intro hsn0
    have hser : completeSerialCheck db b p req = .ok [] := by
      simp only [completeSerialCheck, hp, if_true, hsn0]
      simp
    unfold buildCompletePost
    rw [hc]
    simp only [Bool.true_eq_false, if_false, hloc, hser]
    cases hstep : (completeBuild db b p loc.id []).2 <;> simp [hstep]
  · intro serials hex
    exact extractSerialNumbers_ok_spec _ _ _ hex
  · intro hsn msg hex
    have hser : completeSerialCheck db b p req = .error ("serial_numbers", msg) := by
      simp only [completeSerialCheck, hp, if_true, hsn, hex, if_pos]
    unfold buildCompletePost
    rw [hc]
    simp [hloc, hser]
  · intro hsn serials hex hexist
    have hser := completeSerialCheck_existing db b p req serials hp hsn hex hexist
    unfold buildCompletePost
    rw [hc]
    simp [hloc, hser]

/-- Witness for the amended C3 at `dbC1`: the serial-free request `reqC3` is
accepted and the resulting state is exactly `completeBuild` applied with the
empty serial list. -/
theorem completePost_serials_optional_witness :
    (buildCompletePost dbC1 bC1 pC1 reqC3).completeBuildCalled = true ∧
    (buildCompletePost dbC1 bC1 pC1 reqC3).db = (completeBuild dbC1 bC1 pC1 7 []).1 :=
  (completePost_serials_optional dbC1 bC1 pC1 reqC3 { id := 7 }
    (by decide) (by decide) (by decide)).1 (by decide)

/-- C9: `BuildAutoAllocate.post` and `BuildUnallocate.post` guard on
`confirm is False`, so they perform the action whenever the `confirm` key is
present with any value — the strings "false" or "" included — and reject only
when the key is entirely absent; `BuildComplete.post` instead parses the value
with `str2bool`, so a present "false" is rejected there. -/
theorem confirm_identity_guard (db : DB) (b : Build) (p : Part) (v : String) :
    (buildAutoAllocatePost db b (some v)).performed = true ∧
    (buildAutoAllocatePost db b (some v)).db = autoAllocate db b ∧
    (buildAutoAllocatePost db b none).performed = false ∧
    (buildAutoAllocatePost db b none).db = db ∧
    (buildUnallocatePost db b (some v)).performed = true ∧
    (buildUnallocatePost db b (some v)).db = unallocateStock db b.id ∧
    (buildUnallocatePost db b none).performed = false ∧
    (buildUnallocatePost db b none).db = db ∧
    (buildCompletePost db b p { confirm := some "false" }).completeBuildCalled = false ∧
    ("confirm", "Confirm completion of build")
      ∈ (buildCompletePost db b p { confirm := some "false" }).errors := by
  have hF : str2bool (some "false") = false := by decide
  refine ⟨rfl, rfl, rfl, rfl, rfl, rfl, rfl, rfl, ?_, ?_⟩
  · simp [buildCompletePost, hF]
  · simp [buildCompletePost, hF]

/-- C10: `BuildItemCreate.get_initial` is partial at its public interface:
when the request supplies a `part` id resolving to an existing part but no
`build` id and no `quantity` parameter, the code reaches
`build.getUnallocatedQuantity(part)` with `build = None` and raises an
uncaught `AttributeError` instead of returning initial data. -/
theorem getInitial_none_build_crash (db : DB) (req : ItemCreateParams)
    (ps : String) (pid : Nat) (p : Part)
    (hps : req.part = some ps) (hne : ps ≠ "")
    (hpid : strToNat ps = some pid)
    (hp : db.getPart pid = some p)
    (hb : req.build = none)
    (hq : req.quantity = none) :
    buildItemCreateGetInitial db req = .error .attrErrorNoneBuild := by
  unfold buildItemCreateGetInitial
  simp [hps, hb, hq, truthy, hne, hpid, hp]

/-- Witness for C10: requesting the allocation form with only `part=1` against
`dbC10` hits the `AttributeError` crash. -/
theorem getInitial_none_build_crash_witness :
    buildItemCreateGetInitial dbC10 reqC10 = .error .attrErrorNoneBuild :=
  getInitial_none_build_crash dbC10 reqC10 "1" 1 { id := 1 }
    (by decide) (by decide) (by decide) (by decide) (by decide) (by decide)

/-- C6: when the allocation form carries a build id, the selectable
`install_into` choices are exactly the stock items owned by that build with
`is_building = true`; and `createAllocation` accepts an `install_into` target
only when it resolves to such a stock item. -/
theorem install_into_restricted (db : DB) (bid : Nat) (output_id : Option Nat)
    (partParam : Option String) (form : ItemCreateForm)
    (hform : buildItemCreateGetForm db (some bid) output_id partParam = .ok form) :
    (∃ l, form.install_into_candidates = some l ∧
      ∀ s, s ∈ l ↔ s ∈ db.stockItems ∧ s.build = some bid ∧ s.is_building = true) ∧
    (∀ sid q oid db2, createAllocation db bid sid q (some oid) = .ok db2 →
      ∃ o, db.getStockItem oid = some o ∧ o.is_building = true ∧ o.build = some bid) := by
  constructor
  · unfold buildItemCreateGetForm at hform
    cases hfe : buildItemCreateStockFilter db (some bid) partParam with
    | error e => rw [hfe] at hform; cases hform
    | ok avail =>
      rw [hfe] at hform
      dsimp only at hform
      cases hform
      refine ⟨_, rfl, ?_⟩
      intro s
      simp [List.mem_filter]
  · intro sid q oid db2 hca
    unfold createAllocation at hca
    cases hsi : db.getStockItem sid with
    | none => rw [hsi] at hca; cases hca
    | some s =>
      rw [hsi] at hca
      dsimp only at hca
      by_cases h1 : q ≤ 0
      · rw [if_pos h1] at hca; cases hca
      · rw [if_neg h1] at hca
        by_cases h2 : unallocated_quantity db s < q
        · rw [if_pos h2] at hca; cases hca
        · rw [if_neg h2] at hca
          cases ho : db.getStockItem oid with
          | none => rw [ho] at hca; cases hca
          | some o =>
            rw [ho] at hca
            dsimp only at hca
            by_cases h3 : o.is_building = true ∧ o.build = some bid
            · exact ⟨o, rfl, h3.1, h3.2⟩
            · rw [if_neg h3] at hca; cases hca

/-- Witness for C6 at `dbC6`: the form for build 5 offers exactly its
in-progress output as `install_into`, and `createAllocation` enforces the
restriction. -/
theorem install_into_restricted_witness :
    (∃ l, formC6.install_into_candidates = some l ∧
      ∀ s, s ∈ l ↔ s ∈ dbC6.stockItems ∧ s.build = some 5 ∧ s.is_building = true) ∧
    (∀ sid q oid db2, createAllocation dbC6 5 sid q (some oid) = .ok db2 →
      ∃ o, dbC6.getStockItem oid = some o ∧ o.is_building = true ∧ o.build = some 5) :=
  install_into_restricted dbC6 5 none none formC6 (by decide)

lemma locationMatch_iff (db : DB) (tf : Nat) (s : StockItem) :
    (match s.location with
     | some loc => inLocationSubtree db tf loc
     | none => false) = true ↔
    ∃ loc, s.location = some loc ∧ inLocationSubtree db tf loc = true := by
  cases h : s.location <;> simp [h]

/-- C4: for an allocation request naming an existing build and an existing
part, the offered stock candidates are exactly the stock items that are in
stock, match the part, lie inside the build's take-from subtree whenever a
take-from location is set, and are not already allocated to this build for
this part by an existing build item. -/
theorem stock_candidates_characterized (db : DB) (bid pid : Nat) (b : Build)
    (p : Part) (output_id : Option Nat) (ps : String) (form : ItemCreateForm)
    (hne : ps ≠ "") (hpid : strToNat ps = some pid)
    (hp : db.getPart pid = some p)
    (hb : db.getBuild bid = some b)
    (hform : buildItemCreateGetForm db (some bid) output_id (some ps) = .ok form) :
    ∀ s, s ∈ form.stock_candidates ↔
      s ∈ db.stockItems ∧ inStock s = true ∧ s.part = pid ∧
      (∀ tf, b.take_from = some tf →
        ∃ loc, s.location = some loc ∧ inLocationSubtree db tf loc = true) ∧
      ¬ ∃ bi ∈ db.buildItems, bi.build = bid ∧ db.stockPart bi.stock_item = some pid ∧
          bi.stock_item = s.id := by
  intro s
  unfold buildItemCreateGetForm at hform
  unfold buildItemCreateStockFilter at hform
  simp only [truthy, hne, Option.getD, hpid, hp, hb] at hform
  rcases htf : b.take_from with _ | tf
  · rw [htf] at hform
    dsimp only at hform
    cases hform
    simp only [htf]
    simp [List.mem_filter, allocatedStockIds, List.mem_map]
    tauto
  · rw [htf] at hform
    dsimp only at hform
    cases hform
    simp only [htf]
    simp [List.mem_filter, allocatedStockIds, List.mem_map, locationMatch_iff]
    tauto

/-- Witness for C4 at `dbC4`: the offered candidate, stock item 1, satisfies
the eligibility characterization. -/
theorem stock_candidates_characterized_witness :
    ({ id := 1, part := 1, quantity := 5, location := some 2 } : StockItem)
        ∈ formC4.stock_candidates ↔
      ({ id := 1, part := 1, quantity := 5, location := some 2 } : StockItem)
          ∈ dbC4.stockItems ∧
      inStock { id := 1, part := 1, quantity := 5, location := some 2 } = true ∧
      ({ id := 1, part := 1, quantity := 5, location := some 2 } : StockItem).part = 1 ∧
      (∀ tf, ({ id := 5, part := 9, quantity := 1, take_from := some 1 } : Build).take_from
          = some tf →
        ∃ loc, ({ id := 1, part := 1, quantity := 5, location := some 2 } : StockItem).location
            = some loc ∧ inLocationSubtree dbC4 tf loc = true) ∧
      ¬ ∃ bi ∈ dbC4.buildItems, bi.build = 5 ∧ dbC4.stockPart bi.stock_item = some 1 ∧
          bi.stock_item = ({ id := 1, part := 1, quantity := 5, location := some 2 } : StockItem).id :=
  stock_candidates_characterized dbC4 5 1
    { id := 5, part := 9, quantity := 1, take_from := some 1 }
    { id := 1 } none "1" formC4 (by decide) (by decide) (by decide) (by decide) (by decide)
    { id := 1, part := 1, quantity := 5, location := some 2 }

unseal Rat.add Rat.sub Rat.mul in
/-- C5 counterexample: with stock item 1 selected, the remaining requirement
of build 5 for part 1 is 5 and the item's unallocated quantity is 10, yet the
proposed allocation quantity for `reqC5` is 3 (the explicit `quantity`
parameter capped by the unallocated quantity), not
min(remaining requirement, unallocated quantity) = 5. -/
theorem proposed_quantity_cex :
    buildItemCreateGetInitial dbC5 reqC5 =
      .ok { part := some 1, build := some 5, install_into := none, quantity := some 3 } ∧
    getUnallocatedQuantity dbC5 bC5 1 = 5 ∧
    unallocated_quantity dbC5 { id := 1, part := 1, quantity := 10 } = 10 ∧
    qmin 5 10 = 5 ∧ ((3 : ℚ) = 5 → False) := by decide

/-- C5 (amended): when exactly one candidate stock item remains in the form,
it is pre-selected; with a stock item selected in `get_initial`, the proposed
quantity is min(remaining requirement, the item's unallocated quantity) only
when no explicit `quantity` parameter was supplied — an explicit parameter `q`
yields min(q, unallocated) instead — and in every case the proposed quantity
never exceeds the item's unallocated quantity. -/
theorem proposed_quantity_capped (db : DB) (req : ItemCreateParams)
    (ps bs istr : String) (pid bid iid : Nat) (p : Part) (bb : Build) (it : StockItem)
    (hps : req.part = some ps) (hps0 : ps ≠ "") (hps1 : strToNat ps = some pid)
    (hp : db.getPart pid = some p)
    (hbs : req.build = some bs) (hbs0 : bs ≠ "") (hbs1 : strToNat bs = some bid)
    (hb : db.getBuild bid = some bb)
    (his : req.item = some istr) (his0 : istr ≠ "") (his1 : strToNat istr = some iid)
    (hit : db.getStockItem iid = some it)
    (hout : req.install_into = none) :
    (req.quantity = none →
      buildItemCreateGetInitial db req =
        .ok { part := some p.id, build := some bb.id, install_into := none,
              quantity := some (min (getUnallocatedQuantity db bb p.id)
                  (unallocated_quantity db it)) }) ∧
    (∀ qs q, req.quantity = some qs → parseFloat? qs = some q →
      buildItemCreateGetInitial db req =
        .ok { part := some p.id, build := some bb.id, install_into := none,
              quantity := some (min q (unallocated_quantity db it)) }) ∧
    (∀ init, buildItemCreateGetInitial db req = .ok init →
      ∀ qv, init.quantity = some qv → qv ≤ unallocated_quantity db it) ∧
    (∀ db2 bld out pp form x, buildItemCreateGetForm db2 bld out pp = .ok form →
      form.stock_candidates = [x] → form.stock_item_initial = some x.id) := by
  have hqmin : ∀ a c : ℚ, qmin a c = min a c := by
    intro a c
    rw [min_def, qmin]
  have h1 : req.quantity = none →
      buildItemCreateGetInitial db req =
        .ok { part := some p.id, build := some bb.id, install_into := none,
              quantity := some (min (getUnallocatedQuantity db bb p.id)
                  (unallocated_quantity db it)) } := by
    intro hq
    unfold buildItemCreateGetInitial
    simp [hps, hbs, his, hout, hq, truthy, hps0, hbs0, his0, hps1, hbs1, his1, hp, hb, hit,
      hqmin]
  have h2 : ∀ qs q, req.quantity = some qs → parseFloat? qs = some q →
      buildItemCreateGetInitial db req =
        .ok { part := some p.id, build := some bb.id, install_into := none,
              quantity := some (min q (unallocated_quantity db it)) } := by
    intro qs q hq hpf
    unfold buildItemCreateGetInitial
    simp [hps, hbs, his, hout, hq, hpf, truthy, hps0, hbs0, his0, hps1, hbs1, his1, hp, hb,
      hit, hqmin]
  refine ⟨h1, h2, ?_, ?_⟩
  · intro init hinit qv hqv
    cases hq : req.quantity with
    | none =>
      rw [h1 hq] at hinit
      cases hinit
      dsimp only at hqv
      cases hqv
      exact min_le_right _ _
    | some qs =>
      cases hpf : parseFloat? qs with
      | none =>
        rw [show buildItemCreateGetInitial db req = .error .valueError by
          unfold buildItemCreateGetInitial
          simp [hps, hbs, hq, hpf, truthy, hps0, hbs0, hps1, hbs1, hp, hb]] at hinit
        cases hinit
      | some q =>
        rw [h2 qs q hq hpf] at hinit
        cases hinit
        dsimp only at hqv
        cases hqv
        exact min_le_right _ _
  · intro db2 bld out pp form x hf hcand
    unfold buildItemCreateGetForm at hf
    cases hfe : buildItemCreateStockFilter db2 bld pp with
    | error e => rw [hfe] at hf; cases hf
    | ok avail =>
      rw [hfe] at hf
      dsimp only at hf
      cases hf
      dsimp only at hcand
      subst hcand
      rfl

/-- Witness for the amended C5 at `dbC5`: with no quantity parameter the
pre-filled quantity is min(remaining requirement, unallocated quantity). -/
theorem proposed_quantity_capped_witness :
    buildItemCreateGetInitial dbC5 reqC5b =
      .ok { part := some 1, build := some 5, install_into := none,
            quantity := some (min (getUnallocatedQuantity dbC5 bC5 1)
                (unallocated_quantity dbC5 { id := 1, part := 1, quantity := 10 })) } :=
  (proposed_quantity_capped dbC5 reqC5b "1" "5" "1" 1 5 1 { id := 1 } bC5
    { id := 1, part := 1, quantity := 10 }
    rfl (by decide) (by decide) (by decide)
    rfl (by decide) (by decide) (by decide)
    rfl (by decide) (by decide) (by decide)
    rfl).1 rfl

lemma allocatedAgainst_addBuildItem (db : DB) (bi : BuildItem) (sid : Nat) :
    allocatedAgainst (db.addBuildItem bi) sid =
      allocatedAgainst db sid + (if bi.stock_item = sid then bi.quantity else 0) := by
  unfold allocatedAgainst DB.addBuildItem
  rw [List.filter_append, List.map_append, List.sum_append]
  congr 1
  by_cases h : bi.stock_item = sid <;> simp [h]

lemma invariant_addBuildItem {db : DB} {bi : BuildItem}
    (hinv : allocationInvariant db)
    (hq : ∀ s ∈ db.stockItems, s.id = bi.stock_item →
      allocatedAgainst db s.id + bi.quantity ≤ s.quantity) :
    allocationInvariant (db.addBuildItem bi) := by
  intro s hs
  have hs2 : s ∈ db.stockItems := hs
  rw [allocatedAgainst_addBuildItem]
  by_cases h : bi.stock_item = s.id
  · rw [if_pos h]
    exact hq s hs2 h.symm
  · rw [if_neg h]
    simpa using hinv s hs2

lemma createAllocation_invariant {db : DB} {buildId stockId : Nat} {q : ℚ}
    {into : Option Nat} {db2 : DB}
    (hnd : stockIdsNodup db) (hinv : allocationInvariant db)
    (h : createAllocation db buildId stockId q into = .ok db2) :
    allocationInvariant db2 := by
  unfold createAllocation at h
  cases hsi : db.getStockItem stockId with
  | none => rw [hsi] at h; cases h
  | some s0 =>
    rw [hsi] at h
    dsimp only at h
    by_cases h1 : q ≤ 0
    · rw [if_pos h1] at h; cases h
    · rw [if_neg h1] at h
      by_cases h2 : unallocated_quantity db s0 < q
      · rw [if_pos h2] at h; cases h
      · rw [if_neg h2] at h
        have hs0id : s0.id = stockId := by
          have h4 := List.find?_some hsi
          simpa using h4
        have hle : allocatedAgainst db stockId + q ≤ s0.quantity := by
          have h3 := not_lt.mp h2
          unfold unallocated_quantity at h3
          rw [hs0id] at h3
          linarith
        have main : ∀ xinto : Option Nat, allocationInvariant
            (db.addBuildItem { id := maxBuildItemId db + 1,
                               build := buildId,
                               stock_item := stockId,
                               quantity := q,
                               install_into := xinto }) := by
          intro xinto
          apply invariant_addBuildItem hinv
          intro s hs hsid
          have hsid2 : s.id = stockId := hsid
          have hgets := getStockItem_of_mem hnd hs
          rw [hsid2, hsi] at hgets
          have hseq : s0 = s := Option.some.inj hgets
          show allocatedAgainst db s.id + q ≤ s.quantity
          rw [← hseq, hs0id]
          exact hle
        cases into with
        | none =>
          cases h
          exact main none
        | some oid =>
          dsimp only at h
          cases hoi : db.getStockItem oid with
          | none => rw [hoi] at h; cases h
          | some o =>
            rw [hoi] at h
            dsimp only at h
            by_cases h3 : o.is_building = true ∧ o.build = some buildId
            · rw [if_pos h3] at h
              cases h
              exact main (some oid)
            · rw [if_neg h3] at h; cases h

lemma invariant_filterBuildItems (db : DB) (P : BuildItem → Bool)
    (hnn : ∀ bi ∈ db.buildItems, 0 ≤ bi.quantity)
    (hinv : allocationInvariant db) :
    allocationInvariant { db with buildItems := db.buildItems.filter P } := by
  intro s hs
  have hs2 : s ∈ db.stockItems := hs
  refine le_trans ?_ (hinv s hs2)
  unfold allocatedAgainst
  dsimp only
  apply List.Sublist.sum_le_sum
  · exact ((List.filter_sublist db.buildItems).filter _).map _
  · intro a ha
    obtain ⟨bi, hbi, rfl⟩ := List.mem_map.mp ha
    exact hnn bi (List.mem_of_mem_filter hbi)

lemma candidates_mem {db : DB} {b : Build} {pid : Nat} {s : StockItem}
    (h : s ∈ allocationCandidates db b pid) : s ∈ db.stockItems ∧ s.part = pid := by
  unfold allocationCandidates at h
  have h2 := List.mem_filter.mp h
  refine ⟨h2.1, ?_⟩
  have h3 := h2.2
  simp only [Bool.and_eq_true, decide_eq_true_eq] at h3
  exact h3.1.1.2

lemma autoAllocatePart_invariant {db : DB} (b : Build) (pid : Nat)
    (hnd : stockIdsNodup db) (hinv : allocationInvariant db) :
    allocationInvariant (autoAllocatePart db b pid) := by
  unfold autoAllocatePart
  cases hc : allocationCandidates db b pid with
  | nil => exact hinv
  | cons s tl =>
    cases tl with
    | cons t tl2 => exact hinv
    | nil =>
      dsimp only
      by_cases hgap : 0 < getUnallocatedQuantity db b pid
      · rw [if_pos hgap]
        apply invariant_addBuildItem hinv
        intro s2 hs2 hsid
        have hsmem : s ∈ allocationCandidates db b pid := by
          rw [hc]
          exact List.mem_singleton_self s
        have hsm := (candidates_mem hsmem).1
        have hsid2 : s2.id = s.id := hsid
        have hgets := getStockItem_of_mem hnd hs2
        rw [hsid2, getStockItem_of_mem hnd hsm] at hgets
        have hseq : s = s2 := Option.some.inj hgets
        show allocatedAgainst db s2.id +
          qmin (getUnallocatedQuantity db b pid) (unallocated_quantity db s) ≤ s2.quantity
        have hq : qmin (getUnallocatedQuantity db b pid) (unallocated_quantity db s) ≤
            unallocated_quantity db s := by
          unfold qmin
          split
          · assumption
          · exact le_refl _
        subst hseq
        unfold unallocated_quantity at hq ⊢
        linarith
      · rw [if_neg hgap]
        exact hinv

lemma autoAllocatePart_stockItems (db : DB) (b : Build) (pid : Nat) :
    (autoAllocatePart db b pid).stockItems = db.stockItems := by
  unfold autoAllocatePart
  cases allocationCandidates db b pid with
  | nil => rfl
  | cons s tl =>
    cases tl with
    | cons t tl2 => rfl
    | nil =>
      dsimp only
      by_cases hgap : 0 < getUnallocatedQuantity db b pid
      · rw [if_pos hgap]
        rfl
      · rw [if_neg hgap]

lemma autoAllocatePart_nodup {db : DB} (b : Build) (pid : Nat)
    (hnd : stockIdsNodup db) : stockIdsNodup (autoAllocatePart db b pid) := by
  unfold stockIdsNodup
  rw [autoAllocatePart_stockItems]
  exact hnd

lemma foldl_autoAllocatePart_invariant (b : Build) :
    ∀ (L : List Nat) (db : DB), stockIdsNodup db → allocationInvariant db →
      allocationInvariant (L.foldl (fun d pid => autoAllocatePart d b pid) db)
  | [], _, _, hinv => hinv
  | pid :: L, db, hnd, hinv => by
    rw [List.foldl_cons]
    exact foldl_autoAllocatePart_invariant b L _ (autoAllocatePart_nodup b pid hnd)
      (autoAllocatePart_invariant b pid hnd hinv)

/-- C2: in a well-formed state (unique stock ids, nonnegative allocation
quantities) where every stock item's allocations sum to at most its quantity,
every allocation operation — creating an allocation, auto-allocating,
releasing all of a build's allocations, deleting a single allocation —
preserves that invariant. -/
theorem allocation_invariant_preserved (db : DB)
    (hnd : stockIdsNodup db)
    (hnn : ∀ bi ∈ db.buildItems, 0 ≤ bi.quantity)
    (hinv : allocationInvariant db) :
    (∀ buildId stockId q into db2,
      createAllocation db buildId stockId q into = .ok db2 → allocationInvariant db2) ∧
    (∀ b, allocationInvariant (autoAllocate db b)) ∧
    (∀ buildId, allocationInvariant (unallocateStock db buildId)) ∧
    (∀ pk, allocationInvariant (deleteBuildItem db pk)) := by
  refine ⟨?_, ?_, ?_, ?_⟩
  · intro buildId stockId q into db2 h
    exact createAllocation_invariant hnd hinv h
  · intro b
    unfold autoAllocate
    exact foldl_autoAllocatePart_invariant b _ db hnd hinv
  · intro buildId
    exact invariant_filterBuildItems db _ hnn hinv
  · intro pk
    exact invariant_filterBuildItems db _ hnn hinv

/-- Witness for C2 at `dbC5`: auto-allocating build 5 keeps every stock item's
allocations within its quantity. -/
theorem allocation_invariant_preserved_witness :
    allocationInvariant (autoAllocate dbC5 bC5) :=
  (allocation_invariant_preserved dbC5 (by decide) (by decide) (by decide)).2.1 bC5

lemma addBuildItem_ne (db : DB) (bi : BuildItem) : db.addBuildItem bi ≠ db := by
  intro h
  have h2 := congrArg (fun d => d.buildItems.length) h
  simp [DB.addBuildItem] at h2

lemma locWithinFuel_addBuildItem (db : DB) (bi : BuildItem) (root : Nat) :
    ∀ fuel cur, locWithinFuel (db.addBuildItem bi) root fuel cur =
      locWithinFuel db root fuel cur
  | 0, _ => rfl
  | fuel + 1, cur => by
    unfold locWithinFuel
    rw [show (db.addBuildItem bi).getLocation cur = db.getLocation cur from rfl]
    cases (db.getLocation cur).bind (fun l => l.parent) with
    | none => rfl
    | some par =>
      dsimp only
      rw [locWithinFuel_addBuildItem db bi root fuel par]

lemma inLocationSubtree_addBuildItem (db : DB) (bi : BuildItem) (root loc : Nat) :
    inLocationSubtree (db.addBuildItem bi) root loc = inLocationSubtree db root loc := by
  unfold inLocationSubtree
  rw [show (db.addBuildItem bi).locations = db.locations from rfl]
  rw [locWithinFuel_addBuildItem]

lemma passesTakeFrom_addBuildItem (db : DB) (bi : BuildItem) (b : Build) (s : StockItem) :
    passesTakeFrom (db.addBuildItem bi) b s = passesTakeFrom db b s := by
  unfold passesTakeFrom
  cases b.take_from with
  | none => rfl
  | some tf =>
    cases s.location with
    | none => rfl
    | some loc => exact inLocationSubtree_addBuildItem db bi tf loc

lemma allocatedStockIds_addBuildItem (db : DB) (bi : BuildItem) (bid pid : Nat) :
    allocatedStockIds (db.addBuildItem bi) bid pid =
      allocatedStockIds db bid pid ++
        (if bi.build = bid ∧ db.stockPart bi.stock_item = some pid
         then [bi.stock_item] else []) := by
  unfold allocatedStockIds DB.addBuildItem
  rw [show ({ db with buildItems := db.buildItems ++ [bi] } : DB).stockPart = db.stockPart
    from rfl]
  rw [List.filter_append, List.map_append]
  congr 1
  by_cases h : bi.build = bid ∧ db.stockPart bi.stock_item = some pid
  · rw [if_pos h]
    simp [h.1, h.2]
  · rw [if_neg h]
    rcases not_and_or.mp h with h1 | h1 <;> simp [h1]

lemma allocatedForPart_addBuildItem (db : DB) (bi : BuildItem) (bid pid : Nat) :
    allocatedForPart (db.addBuildItem bi) bid pid =
      allocatedForPart db bid pid +
        (if bi.build = bid ∧ db.stockPart bi.stock_item = some pid
         then bi.quantity else 0) := by
  unfold allocatedForPart DB.addBuildItem
  rw [show ({ db with buildItems := db.buildItems ++ [bi] } : DB).stockPart = db.stockPart
    from rfl]
  rw [List.filter_append, List.map_append, List.sum_append]
  congr 1
  by_cases h : bi.build = bid ∧ db.stockPart bi.stock_item = some pid
  · rw [if_pos h]
    simp [h.1, h.2]
  · rw [if_neg h]
    rcases not_and_or.mp h with h1 | h1 <;> simp [h1]

lemma getUnallocatedQuantity_addBuildItem_other (db : DB) (bi : BuildItem) (b : Build)
    (pid : Nat) (hother : ¬ db.stockPart bi.stock_item = some pid) :
    getUnallocatedQuantity (db.addBuildItem bi) b pid = getUnallocatedQuantity db b pid := by
  unfold getUnallocatedQuantity
  rw [show bomLineQuantity (db.addBuildItem bi) b.part pid = bomLineQuantity db b.part pid
    from rfl]
  rw [allocatedForPart_addBuildItem]
  rw [if_neg (fun hand => hother hand.2)]
  ring

lemma mem_allocationCandidates {db : DB} {b : Build} {pid : Nat} {s : StockItem} :
    s ∈ allocationCandidates db b pid ↔
      s ∈ db.stockItems ∧ inStock s = true ∧ s.part = pid ∧
      passesTakeFrom db b s = true ∧
      (allocatedStockIds db b.id pid).contains s.id = false := by
  unfold allocationCandidates
  simp [List.mem_filter, and_assoc]

lemma allocationCandidates_addBuildItem_other (db : DB) (bi : BuildItem) (b : Build)
    (pid : Nat) (hother : ¬ db.stockPart bi.stock_item = some pid) :
    allocationCandidates (db.addBuildItem bi) b pid = allocationCandidates db b pid := by
  unfold allocationCandidates
  rw [show (db.addBuildItem bi).stockItems = db.stockItems from rfl]
  apply List.filter_congr
  intro x _
  rw [passesTakeFrom_addBuildItem, allocatedStockIds_addBuildItem]
  rw [if_neg (fun hand => hother hand.2)]
  rw [List.append_nil]

lemma stockPart_of_candidate {db : DB} {b : Build} {pid : Nat} {s : StockItem}
    (hnd : stockIdsNodup db) (hs : s ∈ allocationCandidates db b pid) :
    db.stockPart s.id = some pid := by
  have hmem := mem_allocationCandidates.mp hs
  unfold DB.stockPart
  rw [getStockItem_of_mem hnd hmem.1]
  simp [hmem.2.2.1]

lemma candidates_after_alloc {db : DB} {b : Build} {pid : Nat} {s : StockItem}
    (hnd : stockIdsNodup db) (hc : allocationCandidates db b pid = [s])
    (bi : BuildItem) (hbib : bi.build = b.id) (hbis : bi.stock_item = s.id) :
    allocationCandidates (db.addBuildItem bi) b pid = [] := by
  have hs : s ∈ allocationCandidates db b pid := by
    rw [hc]
    exact List.mem_singleton_self s
  have hsp : db.stockPart s.id = some pid := stockPart_of_candidate hnd hs
  rw [List.eq_nil_iff_forall_not_mem]
  intro x hx
  have hx2 := mem_allocationCandidates.mp hx
  have hxs : x ∈ db.stockItems := hx2.1
  have hxin : inStock x = true := hx2.2.1
  have hxp : x.part = pid := hx2.2.2.1
  have hxtf : passesTakeFrom db b x = true := by
    rw [← passesTakeFrom_addBuildItem db bi]
    exact hx2.2.2.2.1
  have hxcon := hx2.2.2.2.2
  rw [allocatedStockIds_addBuildItem] at hxcon
  rw [if_pos ⟨hbib, by rw [hbis]; exact hsp⟩] at hxcon
  have hnotmem : ¬ x.id ∈ allocatedStockIds db b.id pid ++ [bi.stock_item] := by
    intro hm
    have h2 := List.elem_iff.mpr hm
    have hxcon2 : List.elem x.id (allocatedStockIds db b.id pid ++ [bi.stock_item]) = false :=
      hxcon
    rw [hxcon2] at h2
    cases h2
  have hxcon1 : (allocatedStockIds db b.id pid).contains x.id = false := by
    cases hcc : (allocatedStockIds db b.id pid).contains x.id with
    | false => rfl
    | true =>
      exact absurd (List.mem_append_left _ (List.elem_iff.mp hcc)) hnotmem
  have hxne : ¬ x.id = bi.stock_item := by
    intro h
    refine hnotmem (List.mem_append_right _ ?_)
    rw [h]
    exact List.mem_singleton_self _
  have hxmem : x ∈ allocationCandidates db b pid :=
    mem_allocationCandidates.mpr ⟨hxs, hxin, hxp, hxtf, hxcon1⟩
  rw [hc] at hxmem
  have hxeq : x = s := List.mem_singleton.mp hxmem
  apply hxne
  rw [hxeq, hbis]

lemma autoAllocatePart_eq_add {db : DB} {b : Build} {pid : Nat} {s : StockItem}
    (hc : allocationCandidates db b pid = [s])
    (hgap : 0 < getUnallocatedQuantity db b pid) :
    autoAllocatePart db b pid = db.addBuildItem
      { id := maxBuildItemId db + 1, build := b.id, stock_item := s.id,
        quantity := qmin (getUnallocatedQuantity db b pid) (unallocated_quantity db s),
        install_into := none } := by
  unfold autoAllocatePart
  rw [hc]
  dsimp only
  rw [if_pos hgap]

lemma autoAllocatePart_eq_self_of_nil {db : DB} {b : Build} {pid : Nat}
    (hc : allocationCandidates db b pid = []) : autoAllocatePart db b pid = db := by
  unfold autoAllocatePart
  rw [hc]

lemma autoAllocatePart_eq_self_of_two {db : DB} {b : Build} {pid : Nat}
    {s t : StockItem} {tl : List StockItem}
    (hc : allocationCandidates db b pid = s :: t :: tl) :
    autoAllocatePart db b pid = db := by
  unfold autoAllocatePart
  rw [hc]

lemma autoAllocatePart_eq_self_of_nogap {db : DB} {b : Build} {pid : Nat} {s : StockItem}
    (hc : allocationCandidates db b pid = [s])
    (hgap : ¬ 0 < getUnallocatedQuantity db b pid) :
    autoAllocatePart db b pid = db := by
  unfold autoAllocatePart
  rw [hc]
  dsimp only
  rw [if_neg hgap]

lemma autoAllocatePart_idem (db : DB) (b : Build) (pid : Nat) (hnd : stockIdsNodup db) :
    autoAllocatePart (autoAllocatePart db b pid) b pid = autoAllocatePart db b pid := by
  cases hc : allocationCandidates db b pid with
  | nil => rw [autoAllocatePart_eq_self_of_nil hc, autoAllocatePart_eq_self_of_nil hc]
  | cons s tl =>
    cases tl with
    | cons t tl2 =>
      rw [autoAllocatePart_eq_self_of_two hc, autoAllocatePart_eq_self_of_two hc]
    | nil =>
      by_cases hgap : 0 < getUnallocatedQuantity db b pid
      · rw [autoAllocatePart_eq_add hc hgap]
        exact autoAllocatePart_eq_self_of_nil (candidates_after_alloc hnd hc _ rfl rfl)
      · rw [autoAllocatePart_eq_self_of_nogap hc hgap,
          autoAllocatePart_eq_self_of_nogap hc hgap]

lemma autoAllocatePart_sat_preserved (db : DB) (b : Build) (pid pid2 : Nat)
    (hnd : stockIdsNodup db)
    (hSat : autoAllocatePart db b pid = db) :
    autoAllocatePart (autoAllocatePart db b pid2) b pid = autoAllocatePart db b pid2 := by
  cases hc2 : allocationCandidates db b pid2 with
  | nil => rw [autoAllocatePart_eq_self_of_nil hc2]; exact hSat
  | cons t tl =>
    cases tl with
    | cons u tl2 => rw [autoAllocatePart_eq_self_of_two hc2]; exact hSat
    | nil =>
      by_cases hgap2 : 0 < getUnallocatedQuantity db b pid2
      · by_cases hpp : pid2 = pid
        · subst hpp
          rw [autoAllocatePart_eq_add hc2 hgap2] at hSat
          exact absurd hSat (addBuildItem_ne db _)
        · have ht : t ∈ allocationCandidates db b pid2 := by
            rw [hc2]
            exact List.mem_singleton_self t
          have hsp2 := stockPart_of_candidate hnd ht
          have hother : ¬ db.stockPart
              ({ id := maxBuildItemId db + 1, build := b.id, stock_item := t.id,
                 quantity := qmin (getUnallocatedQuantity db b pid2)
                   (unallocated_quantity db t),
                 install_into := none } : BuildItem).stock_item = some pid := by
            intro h
            have h2 : db.stockPart t.id = some pid := h
            rw [hsp2] at h2
            exact hpp (Option.some.inj h2)
          have hcand2 := allocationCandidates_addBuildItem_other db _ b pid hother
          have hgapeq := getUnallocatedQuantity_addBuildItem_other db _ b pid hother
          rw [autoAllocatePart_eq_add hc2 hgap2]
          cases hcp : allocationCandidates db b pid with
          | nil => exact autoAllocatePart_eq_self_of_nil (hcand2.trans hcp)
          | cons u tl =>
            cases tl with
            | cons v tl2 => exact autoAllocatePart_eq_self_of_two (hcand2.trans hcp)
            | nil =>
              by_cases hgapp : 0 < getUnallocatedQuantity db b pid
              · rw [autoAllocatePart_eq_add hcp hgapp] at hSat
                exact absurd hSat (addBuildItem_ne db _)
              · refine autoAllocatePart_eq_self_of_nogap (hcand2.trans hcp) ?_
                rw [hgapeq]
                exact hgapp
      · rw [autoAllocatePart_eq_self_of_nogap hc2 hgap2]
        exact hSat

lemma autoAllocatePart_bomRows (db : DB) (b : Build) (pid : Nat) :
    (autoAllocatePart db b pid).bomRows = db.bomRows := by
  cases hc : allocationCandidates db b pid with
  | nil => rw [autoAllocatePart_eq_self_of_nil hc]
  | cons s tl =>
    cases tl with
    | cons t tl2 => rw [autoAllocatePart_eq_self_of_two hc]
    | nil =>
      by_cases hgap : 0 < getUnallocatedQuantity db b pid
      · rw [autoAllocatePart_eq_add hc hgap]
        rfl
      · rw [autoAllocatePart_eq_self_of_nogap hc hgap]

lemma foldl_autoAllocatePart_nodup (b : Build) :
    ∀ (L : List Nat) (db : DB), stockIdsNodup db →
      stockIdsNodup (L.foldl (fun d pid => autoAllocatePart d b pid) db)
  | [], _, hnd => hnd
  | pid :: L, db, hnd => by
    rw [List.foldl_cons]
    exact foldl_autoAllocatePart_nodup b L _ (autoAllocatePart_nodup b pid hnd)

lemma foldl_autoAllocatePart_bomRows (b : Build) :
    ∀ (L : List Nat) (db : DB),
      (L.foldl (fun d pid => autoAllocatePart d b pid) db).bomRows = db.bomRows
  | [], _ => rfl
  | pid :: L, db => by
    rw [List.foldl_cons, foldl_autoAllocatePart_bomRows b L _, autoAllocatePart_bomRows]

lemma foldl_autoAllocatePart_sat (b : Build) (pid : Nat) :
    ∀ (L : List Nat) (db : DB), stockIdsNodup db →
      autoAllocatePart db b pid = db →
      autoAllocatePart (L.foldl (fun d pid2 => autoAllocatePart d b pid2) db) b pid =
        L.foldl (fun d pid2 => autoAllocatePart d b pid2) db
  | [], _, _, hSat => hSat
  | pid2 :: L, db, hnd, hSat => by
    rw [List.foldl_cons]
    exact foldl_autoAllocatePart_sat b pid L _ (autoAllocatePart_nodup b pid2 hnd)
      (autoAllocatePart_sat_preserved db b pid pid2 hnd hSat)

lemma foldl_autoAllocatePart_saturates (b : Build) :
    ∀ (L : List Nat) (db : DB), stockIdsNodup db →
      ∀ pid ∈ L,
        autoAllocatePart (L.foldl (fun d pid2 => autoAllocatePart d b pid2) db) b pid =
          L.foldl (fun d pid2 => autoAllocatePart d b pid2) db := by
  intro L
  induction L with
  | nil =>
    intro db _ pid h
    cases h
  | cons pid0 L ih =>
    intro db hnd pid hmem
    rw [List.foldl_cons]
    rcases List.mem_cons.mp hmem with rfl | hmem2
    · exact foldl_autoAllocatePart_sat b pid L _ (autoAllocatePart_nodup b pid hnd)
        (autoAllocatePart_idem db b pid hnd)
    · exact ih _ (autoAllocatePart_nodup b pid0 hnd) pid hmem2

lemma foldl_autoAllocatePart_of_sat (b : Build) :
    ∀ (L : List Nat) (db : DB),
      (∀ pid ∈ L, autoAllocatePart db b pid = db) →
      L.foldl (fun d pid => autoAllocatePart d b pid) db = db
  | [], _, _ => rfl
  | pid0 :: L, db, hall => by
    rw [List.foldl_cons, hall pid0 (List.mem_cons_self pid0 L)]
    exact foldl_autoAllocatePart_of_sat b L db
      (fun pid h => hall pid (List.mem_cons_of_mem _ h))

/-- C8: `autoAllocate` is idempotent.  In a state with unique stock ids,
running the auto-allocation twice with no intervening change yields exactly
the state after the first run: the second run allocates nothing and duplicates
no build-item record. -/
theorem autoAllocate_idempotent (db : DB) (b : Build) (hnd : stockIdsNodup db) :
    autoAllocate (autoAllocate db b) b = autoAllocate db b := by
  unfold autoAllocate
  rw [foldl_autoAllocatePart_bomRows]
  exact foldl_autoAllocatePart_of_sat b _ _
    (fun pid hmem => foldl_autoAllocatePart_saturates b _ db hnd pid hmem)

/-- Witness for C8 at `dbC5`: re-running auto-allocation of build 5 changes
nothing. -/
theorem autoAllocate_idempotent_witness :
    autoAllocate (autoAllocate dbC5 bC5) bC5 = autoAllocate dbC5 bC5 :=
  autoAllocate_idempotent dbC5 bC5 (by decide)
